import Mathlib

/-!
Shallow embedding of `src/LakeShore.py` (repository `A42LakeShore`).

The core of the program is the buffered, time-windowed file writer
`monitor_file` (lines 106-165), the instrument reader `LAKESHORE.read`
(lines 235-243), the sampling loop `RunningThread` (lines 319-369) and the
module top-level bootstrap (lines 374-418).

Modelling conventions:
* The monotonic clock (`time.monotonic()`) is modelled as an explicit
  integer-valued parameter passed to each operation.  `savedata` samples the
  clock twice in the source (the guard on line 142 and the deadline reset on
  line 149), so it takes two time arguments `tg` (guard sample) and `tr`
  (reset sample); a real monotonic clock guarantees `tg ≤ tr`.
  `flushdata` samples the clock once more on line 162, before the two
  samples inside `savedata`, hence its three time arguments `t1 tg tr`.
* The append-only file on disk is modelled as the list of chunks the writer
  has appended to it, in order: one `Chunk.header` per header write
  (line 130) and one `Chunk.line` per data-line write (line 145, which
  writes the buffered string followed by a newline).
* The configured flush window `configuration['SAVINGINTERVALS']` is the
  explicit parameter `W`.
* Python truthiness of `self.headertext` (which is `None`, `""`, or a
  non-empty string) is modelled by `pytruthy` on `Option String`.
* Python's `str.split`, `str.lstrip` and slicing used by
  `writeheaderblock` are modelled character-list-wise (`splitOnChar`,
  `pyIsSpace`, `List.drop`/`List.take`).  A call of `writeheaderblock`
  when `self.headertext` is `None` and the block has at least one inner
  line raises `TypeError` in Python (`None += str`); fallible calls are
  therefore modelled with `Except Unit`.
* The numeric parsers `float(...)` / `int(...)` applied by `LAKESHORE.read`
  to device responses are Python builtins, not code of this repository;
  they are abstracted as parameters `pF : String → Option ℚ` and
  `pI : String → Option ℤ` (`none` models the `ValueError` raised on a
  non-numeric response).  The device transport `self.lsh.query` is
  abstracted as a function `q : String → String`.
-/

namespace LakeShore

/-- One chunk appended to the log file: either the header text written by
`flushheader` (line 130) or one data line written by line 145 of
`savedata` (the buffered string followed by a newline). -/
inductive Chunk where
  | header (s : String)
  | line (s : String)
deriving DecidableEq

/-- State of `monitor_file` (lines 106-165): `headertext` (a Python string
or `None`), the buffered `data` lines, the flush deadline `time`, together
with the contents of the append-only file on disk. -/
structure monitor_file where
  headertext : Option String
  data : List String
  time : ℤ
  file : List Chunk
deriving DecidableEq

/-- Python truthiness of `self.headertext`: `None` and `""` are falsy,
every non-empty string is truthy (guard on line 144). -/
def pytruthy : Option String → Bool
  | none => false
  | some h => !(h == "")

/-- Effect of `self.flushheader(fh)` (lines 129-132) on the file handle:
the current header text is written as one chunk.  `savedata` only calls it
under the truthiness guard of line 144; `headerChunks` packages guard and
write together. -/
def flushheader (h : String) : Chunk := Chunk.header h

/-- Chunks appended for the header by lines 144 and 129-130: the header
text is written exactly when `self.headertext` is truthy. -/
def headerChunks (ht : Option String) : List Chunk :=
  if pytruthy ht then [flushheader (ht.getD "")] else []

/-- Value of `self.headertext` after the guarded call of lines 144 and
129-132: `flushheader` sets it to `None`; when the guard fails it is left
unchanged. -/
def headerAfterFlush (ht : Option String) : Option String :=
  if pytruthy ht then none else ht

/-- The `monitor_file.__init__` constructor (lines 108-127): empty header
text `""`, empty data buffer, flush deadline `monotonic() + W` (line 125),
and an empty file (a fresh time-stamped path, or the cleared debug file). -/
def mkfile (W t0 : ℤ) : monitor_file :=
  { headertext := some "", data := [], time := t0 + W, file := [] }

/-- The `monitor_file.savedata` method (lines 140-151).  Returns unchanged
if the buffer is empty (line 141) or the guard clock sample `tg` is before
the deadline (line 142); otherwise appends the header (if truthy) and every
buffered line (each followed by a newline) to the file, clears the buffer,
and resets the deadline to the reset clock sample `tr` plus the window `W`
(line 149). -/
def savedata (W : ℤ) (s : monitor_file) (tg tr : ℤ) : monitor_file :=
  if s.data = [] then s
  else if tg < s.time then s
  else
    { headertext := headerAfterFlush s.headertext
      data := []
      time := tr + W
      file := s.file ++ headerChunks s.headertext
        ++ (s.data.map fun d => Chunk.line (d ++ "\n")) }

/-- The `monitor_file.writedata` method (lines 153-159): append the line to
the buffer, then attempt an opportunistic `savedata`. -/
def writedata (W : ℤ) (s : monitor_file) (datastr : String) (tg tr : ℤ) : monitor_file :=
  savedata W { s with data := s.data ++ [datastr] } tg tr

/-- The `monitor_file.flushdata` method (lines 161-165): reset the deadline
to the current clock sample `t1` (line 162), then run `savedata` (whose own
two clock samples are `tg` and `tr`). -/
def flushdata (W : ℤ) (s : monitor_file) (t1 tg tr : ℤ) : monitor_file :=
  savedata W { s with time := t1 } tg tr

/-- Splitting a character list on a separator character, modelling Python's
`str.split(sep)` for a one-character separator: `splitOnChar sep cs` always
returns one more part than there are occurrences of `sep`. -/
def splitOnChar (sep : Char) : List Char → List (List Char)
  | [] => [[]]
  | c :: cs =>
    if c = sep then [] :: splitOnChar sep cs
    else
      match splitOnChar sep cs with
      | [] => [[c]]
      | g :: gs => (c :: g) :: gs

/-- ASCII whitespace recognized by Python's `str.lstrip()` with no
argument. -/
def pyIsSpace (c : Char) : Bool :=
  c = ' ' || c = '\t' || c = '\n' || c = '\r' || c = '\x0b' || c = '\x0c'

/-- The inner lines of a header block: `b.split("\n")[1:-1]` on line 135. -/
def headerlines (b : String) : List (List Char) :=
  ((splitOnChar '\n' b.data).drop 1).dropLast

/-- The `monitor_file.writeheaderblock` method (lines 134-138).  For every
inner line of the block it executes `self.headertext += "# " + l[n:] + "\n"`
where `n` is the leading-whitespace length of the first inner line.  When
`self.headertext` is `None` (header already flushed) and there is at least
one inner line, the first `+=` raises `TypeError`, modelled as
`Except.error ()`. -/
def writeheaderblock (s : monitor_file) (b : String) : Except Unit monitor_file :=
  match headerlines b with
  | [] => Except.ok s
  | l0 :: rest =>
    let n := l0.length - (l0.dropWhile pyIsSpace).length
    match s.headertext with
    | none => Except.error ()
    | some h =>
      let pieces := (l0 :: rest).map fun l => "# " ++ String.mk (l.drop n) ++ "\n"
      Except.ok { s with headertext := some (h ++ String.join pieces) }

/-- Projection selecting data-line chunks. -/
def chunkLine : Chunk → Option String
  | Chunk.header _ => none
  | Chunk.line s => some s

/-- The data lines of the file, in order, header chunks skipped. -/
def dataChunks (file : List Chunk) : List String :=
  file.filterMap chunkLine

/-- Test for a header chunk. -/
def isHeaderChunk : Chunk → Bool
  | Chunk.header _ => true
  | Chunk.line _ => false

/-- Number of header chunks ever written to the file. -/
def headerCount (file : List Chunk) : ℕ :=
  file.countP isHeaderChunk

/-- One externally triggered writer operation: a `writedata` call (with the
two clock samples taken inside its `savedata`) or a `flushdata` call (with
its own clock sample followed by the two taken inside `savedata`). -/
inductive Op where
  | write (l : String) (tg tr : ℤ)
  | flush (t1 tg tr : ℤ)
deriving DecidableEq

/-- Execution of one writer operation. -/
def step (W : ℤ) (s : monitor_file) : Op → monitor_file
  | Op.write l tg tr => writedata W s l tg tr
  | Op.flush t1 tg tr => flushdata W s t1 tg tr

/-- Execution of a sequence of writer operations, in order. -/
def run (W : ℤ) (s : monitor_file) (ops : List Op) : monitor_file :=
  ops.foldl (step W) s

/-- The lines passed to `writedata` by a sequence of operations, in order. -/
def writtenLines (ops : List Op) : List String :=
  ops.filterMap fun op => match op with
    | Op.write l _ _ => some l
    | Op.flush _ _ _ => none

/-- One `writedata` call of a write-only trace: its line and the two clock
samples of its `savedata`. -/
structure WriteEv where
  l : String
  tg : ℤ
  tr : ℤ

/-- Guard clock samples of the `writedata` calls of a write-only trace that
flush (append to the file): a `writedata` flushes exactly when its guard
sample is at or past the deadline, the buffer being non-empty after the
append of line 155. -/
def flushTimes (W : ℤ) : monitor_file → List WriteEv → List ℤ
  | _, [] => []
  | s, e :: ws =>
    if s.time ≤ e.tg then e.tg :: flushTimes W (writedata W s e.l e.tg e.tr) ws
    else flushTimes W (writedata W s e.l e.tg e.tr) ws

/-- The five query strings issued by `LAKESHORE.read` (lines 235-243), in
source order. -/
def readQueries : List String :=
  ["RDGR? 1", "RDGK? 1", "SETP?", "HTRRNG?", "HTR?"]

/-- The `LAKESHORE.read` method (lines 235-243) over an abstract device
`q` and abstract numeric parsers `pF` (Python `float`) and `pI` (Python
`int`).  Returns the list of queries actually issued together with the
assembled five-tuple, or `none` if a parse raised; a raise short-circuits
the remaining queries, as exception propagation does in the source. -/
def read (q : String → String) (pF : String → Option ℚ) (pI : String → Option ℤ) :
    List String × Option (ℚ × ℚ × ℚ × ℤ × ℚ) :=
  match pF (q "RDGR? 1") with
  | none => (["RDGR? 1"], none)
  | some T1R =>
    match pF (q "RDGK? 1") with
    | none => (["RDGR? 1", "RDGK? 1"], none)
    | some T1T =>
      match pF (q "SETP?") with
      | none => (["RDGR? 1", "RDGK? 1", "SETP?"], none)
      | some TSP =>
        match pI (q "HTRRNG?") with
        | none => (["RDGR? 1", "RDGK? 1", "SETP?", "HTRRNG?"], none)
        | some HTR =>
          match pF (q "HTR?") with
          | none => (readQueries, none)
          | some HTV => (readQueries, some (T1R, T1T, TSP, HTR, HTV))

/-- Python slice `ts[:-5]` applied on line 349 to the wall-clock stamp
`datetime.now().strftime('%H:%M:%S.%f')` (line 334): all characters but the
last five. -/
def tsTrim (ts : String) : String :=
  String.mk (ts.data.take (ts.data.length - 5))

/-- The record string `w` built by `RunningThread` (lines 349-355) from the
trimmed time stamp and the six already-formatted numeric fields (the
`%12.1f` and `%8.3e` float formatting of Python is abstracted: each field
is passed as its formatted string).  Note every field, the last one
included, is followed by a tab. -/
def recordLine (ts sMark T1R T1T TSP HTR HTV : String) : String :=
  tsTrim ts ++ "\t" ++ sMark ++ "\t" ++ T1R ++ "\t" ++ T1T ++ "\t" ++ TSP
    ++ "\t" ++ HTR ++ "\t" ++ HTV ++ "\t"

/-- Formalization of the spec sentence behind claim C7 (spec section 6):
a stored data line consists of seven tab-separated fields, the first being
a wall-clock stamp of the form `HH:MM:SS.fff` (12 characters), and is
terminated by a newline.  Fields contain no tab, as befits tab-separated
data. -/
def claimC7shape (line : String) : Prop :=
  ∃ f1 f2 f3 f4 f5 f6 f7 : String,
    f1.data.count '\t' = 0 ∧ f2.data.count '\t' = 0 ∧ f3.data.count '\t' = 0 ∧
    f4.data.count '\t' = 0 ∧ f5.data.count '\t' = 0 ∧ f6.data.count '\t' = 0 ∧
    f7.data.count '\t' = 0 ∧ f1.length = 12 ∧
    line = f1 ++ "\t" ++ f2 ++ "\t" ++ f3 ++ "\t" ++ f4 ++ "\t" ++ f5
      ++ "\t" ++ f6 ++ "\t" ++ f7 ++ "\n"

/-- The statements of the module top-level bootstrap (lines 374-404), named
after what they do. -/
inductive BootEvent where
  | constructDevice
  | constructFile
  | writeHeaderBlock
  | openPort
  | configurePort
  | startPort
  | createThread
  | setRunningTrue
  | startThread
deriving DecidableEq

/-- Source line of each bootstrap statement in `LakeShore.py`:
`LS = LAKESHORE()` (374), `fh = monitor_file(...)` (378),
`fh.writeheaderblock(...)` (379), `LS.Open()` (396), `LS.Configure()`
(397), `LS.Start()` (398), `LOOP = Thread(target=RunningThread)` (402),
`Running = True` (403), `LOOP.start()` (404). -/
def bootLine : BootEvent → ℕ
  | BootEvent.constructDevice => 374
  | BootEvent.constructFile => 378
  | BootEvent.writeHeaderBlock => 379
  | BootEvent.openPort => 396
  | BootEvent.configurePort => 397
  | BootEvent.startPort => 398
  | BootEvent.createThread => 402
  | BootEvent.setRunningTrue => 403
  | BootEvent.startThread => 404

/-- Event `a` is executed strictly before event `b` during bootstrap (the
bootstrap is straight-line code, so source order is execution order). -/
def bootPrecedes (a b : BootEvent) : Prop :=
  bootLine a < bootLine b

/-- Formalization of the order claimed by C9 (spec section 4.4): construct
the log file, write the header, open, configure and start the port, start
the scheduler thread, and only then set the run flag. -/
def claimC9order : Prop :=
  bootPrecedes BootEvent.constructFile BootEvent.writeHeaderBlock ∧
  bootPrecedes BootEvent.writeHeaderBlock BootEvent.openPort ∧
  bootPrecedes BootEvent.openPort BootEvent.configurePort ∧
  bootPrecedes BootEvent.configurePort BootEvent.startPort ∧
  bootPrecedes BootEvent.startPort BootEvent.startThread ∧
  bootPrecedes BootEvent.startThread BootEvent.setRunningTrue

/-! Helper lemmas about `savedata` and the writer invariants. -/

/-- Lines 141-142: `savedata` is the identity when the buffer is empty or
the guard clock sample is before the deadline. -/
theorem savedata_noop (W : ℤ) (s : monitor_file) (tg tr : ℤ)
    (h : s.data = [] ∨ tg < s.time) : savedata W s tg tr = s := by
  unfold savedata
  rcases h with h | h
  · simp [h]
  · by_cases hd : s.data = []
    · simp [hd]
    · simp [hd, h]

/-- Lines 143-149: when the buffer is non-empty and the guard sample is at
or past the deadline, `savedata` emits header (if truthy) then all buffered
lines, clears the buffer and resets the deadline. -/
theorem savedata_flush_eq (W : ℤ) (s : monitor_file) (tg tr : ℤ)
    (hd : s.data ≠ []) (ht : s.time ≤ tg) :
    savedata W s tg tr =
      { headertext := headerAfterFlush s.headertext
        data := []
        time := tr + W
        file := s.file ++ headerChunks s.headertext
          ++ (s.data.map fun d => Chunk.line (d ++ "\n")) } := by
  unfold savedata
  rw [if_neg hd, if_neg (not_lt.mpr ht)]

theorem dataChunks_append (a b : List Chunk) :
    dataChunks (a ++ b) = dataChunks a ++ dataChunks b := by
  simp [dataChunks]

theorem dataChunks_headerChunks (ht : Option String) :
    dataChunks (headerChunks ht) = [] := by
  unfold headerChunks
  split <;> simp [dataChunks, chunkLine, flushheader]

theorem dataChunks_lines : ∀ l : List String,
    dataChunks (l.map fun d => Chunk.line (d ++ "\n")) = l.map (· ++ "\n")
  | [] => rfl
  | a :: l => by
    simp only [List.map_cons, dataChunks, List.filterMap_cons, chunkLine]
    exact congrArg _ (dataChunks_lines l)

theorem headerCount_append (a b : List Chunk) :
    headerCount (a ++ b) = headerCount a + headerCount b := by
  simp [headerCount, List.countP_append]

theorem pytruthy_of_ne (h : String) (hh : h ≠ "") : pytruthy (some h) = true := by
  simp [pytruthy, hh]

theorem headerChunks_of_ne (h : String) (hh : h ≠ "") :
    headerChunks (some h) = [Chunk.header h] := by
  simp [headerChunks, pytruthy_of_ne h hh, flushheader]

theorem headerAfterFlush_of_ne (h : String) (hh : h ≠ "") :
    headerAfterFlush (some h) = none := by
  simp [headerAfterFlush, pytruthy_of_ne h hh]

theorem headerCount_headerChunks_true (ht : Option String)
    (h : pytruthy ht = true) : headerCount (headerChunks ht) = 1 := by
  simp [headerChunks, h, headerCount, flushheader, isHeaderChunk]

theorem headerChunks_of_false (ht : Option String)
    (h : pytruthy ht = false) : headerChunks ht = [] := by
  simp [headerChunks, h]

theorem headerAfterFlush_true (ht : Option String) (h : pytruthy ht = true) :
    headerAfterFlush ht = none := by
  simp [headerAfterFlush, h]

theorem headerAfterFlush_false (ht : Option String) (h : pytruthy ht = false) :
    headerAfterFlush ht = ht := by
  simp [headerAfterFlush, h]

theorem headerCount_lines (l : List String) :
    headerCount (l.map fun d => Chunk.line (d ++ "\n")) = 0 := by
  induction l with
  | nil => rfl
  | cons a l _ih => simp [headerCount, isHeaderChunk, List.countP_cons]

/-- Conservation of written and buffered data lines across one `savedata`:
whatever set of lines was in file-plus-buffer before is there afterwards,
in the same order. -/
theorem savedata_chunks (W : ℤ) (s : monitor_file) (tg tr : ℤ) :
    dataChunks (savedata W s tg tr).file ++ (savedata W s tg tr).data.map (· ++ "\n")
      = dataChunks s.file ++ s.data.map (· ++ "\n") := by
  by_cases hd : s.data = []
  · rw [savedata_noop W s tg tr (Or.inl hd)]
  · by_cases hg : tg < s.time
    · rw [savedata_noop W s tg tr (Or.inr hg)]
    · rw [savedata_flush_eq W s tg tr hd (not_lt.mp hg)]
      simp [dataChunks_append, dataChunks_headerChunks, dataChunks_lines]

theorem step_chunks (W : ℤ) (s : monitor_file) (op : Op) :
    dataChunks (step W s op).file ++ (step W s op).data.map (· ++ "\n")
      = dataChunks s.file ++ s.data.map (· ++ "\n") ++ (writtenLines [op]).map (· ++ "\n") := by
  cases op with
  | write l tg tr =>
    have hs := savedata_chunks W { s with data := s.data ++ [l] } tg tr
    simp only [step, writedata, writtenLines, List.filterMap_cons, List.filterMap_nil] at hs ⊢
    rw [hs]
    simp
  | flush t1 tg tr =>
    have hs := savedata_chunks W { s with time := t1 } tg tr
    simp only [step, flushdata, writtenLines, List.filterMap_cons, List.filterMap_nil] at hs ⊢
    rw [hs]
    simp

theorem run_cons (W : ℤ) (s : monitor_file) (op : Op) (ops : List Op) :
    run W s (op :: ops) = run W (step W s op) ops := rfl

theorem run_append (W : ℤ) (s : monitor_file) (ops1 ops2 : List Op) :
    run W s (ops1 ++ ops2) = run W (run W s ops1) ops2 := by
  simp [run, List.foldl_append]

theorem writtenLines_cons (op : Op) (ops : List Op) :
    writtenLines (op :: ops) = writtenLines [op] ++ writtenLines ops := by
  simp [writtenLines, List.filterMap_cons]
  cases op <;> simp

/-- Conservation of written and buffered data lines across a whole trace of
writer operations. -/
theorem run_chunks (W : ℤ) : ∀ (ops : List Op) (s : monitor_file),
    dataChunks (run W s ops).file ++ (run W s ops).data.map (· ++ "\n")
      = dataChunks s.file ++ s.data.map (· ++ "\n") ++ (writtenLines ops).map (· ++ "\n")
  | [], s => by simp [run, writtenLines]
  | op :: ops, s => by
    rw [run_cons, run_chunks W ops (step W s op), step_chunks, writtenLines_cons op ops]
    simp [List.map_append, List.append_assoc]

/-- The buffer is empty after any `flushdata` whose clock samples are
monotone. -/
theorem flushdata_data_nil (W : ℤ) (s : monitor_file) (t1 tg tr : ℤ)
    (h : t1 ≤ tg) : (flushdata W s t1 tg tr).data = [] := by
  unfold flushdata
  by_cases hd : s.data = []
  · rw [savedata_noop W { s with time := t1 } tg tr (Or.inl hd)]
    exact hd
  · rw [savedata_flush_eq W { s with time := t1 } tg tr hd h]

theorem savedata_headerInv (W : ℤ) (s : monitor_file) (tg tr : ℤ)
    (h1 : headerCount s.file ≤ 1)
    (h2 : pytruthy s.headertext = true → headerCount s.file = 0) :
    headerCount (savedata W s tg tr).file ≤ 1 ∧
      (pytruthy (savedata W s tg tr).headertext = true →
        headerCount (savedata W s tg tr).file = 0) := by
  by_cases hd : s.data = []
  · rw [savedata_noop W s tg tr (Or.inl hd)]
    exact ⟨h1, h2⟩
  · by_cases hg : tg < s.time
    · rw [savedata_noop W s tg tr (Or.inr hg)]
      exact ⟨h1, h2⟩
    · rw [savedata_flush_eq W s tg tr hd (not_lt.mp hg)]
      cases hp : pytruthy s.headertext with
      | false =>
        constructor
        · show headerCount (s.file ++ headerChunks s.headertext
            ++ (s.data.map fun d => Chunk.line (d ++ "\n"))) ≤ 1
          rw [headerChunks_of_false _ hp, List.append_nil, headerCount_append,
            headerCount_lines]
          omega
        · intro hpt
          have hpt2 : pytruthy (headerAfterFlush s.headertext) = true := hpt
          rw [headerAfterFlush_false _ hp, hp] at hpt2
          exact Bool.noConfusion hpt2
      | true =>
        constructor
        · show headerCount (s.file ++ headerChunks s.headertext
            ++ (s.data.map fun d => Chunk.line (d ++ "\n"))) ≤ 1
          rw [headerCount_append, headerCount_append,
            headerCount_headerChunks_true _ hp, headerCount_lines, h2 hp]
        · intro hpt
          have hpt2 : pytruthy (headerAfterFlush s.headertext) = true := hpt
          rw [headerAfterFlush_true _ hp] at hpt2
          exact Bool.noConfusion hpt2

theorem step_headerInv (W : ℤ) (s : monitor_file) (op : Op)
    (h1 : headerCount s.file ≤ 1)
    (h2 : pytruthy s.headertext = true → headerCount s.file = 0) :
    headerCount (step W s op).file ≤ 1 ∧
      (pytruthy (step W s op).headertext = true →
        headerCount (step W s op).file = 0) := by
  cases op with
  | write l tg tr => exact savedata_headerInv W { s with data := s.data ++ [l] } tg tr h1 h2
  | flush t1 tg tr => exact savedata_headerInv W { s with time := t1 } tg tr h1 h2

theorem run_headerInv (W : ℤ) : ∀ (ops : List Op) (s : monitor_file),
    headerCount s.file ≤ 1 →
    (pytruthy s.headertext = true → headerCount s.file = 0) →
    headerCount (run W s ops).file ≤ 1 ∧
      (pytruthy (run W s ops).headertext = true →
        headerCount (run W s ops).file = 0)
  | [], s, h1, h2 => ⟨h1, h2⟩
  | op :: ops, s, h1, h2 => by
    rw [run_cons]
    have hstep := step_headerInv W s op h1 h2
    exact run_headerInv W ops (step W s op) hstep.1 hstep.2

theorem writedata_time_flush (W : ℤ) (s : monitor_file) (l : String) (tg tr : ℤ)
    (h : s.time ≤ tg) : (writedata W s l tg tr).time = tr + W := by
  unfold writedata
  rw [savedata_flush_eq W { s with data := s.data ++ [l] } tg tr (by simp) h]

theorem writedata_time_noflush (W : ℤ) (s : monitor_file) (l : String) (tg tr : ℤ)
    (h : tg < s.time) : (writedata W s l tg tr).time = s.time := by
  unfold writedata
  rw [savedata_noop W { s with data := s.data ++ [l] } tg tr (Or.inr h)]

/-- Consecutive flushes of a write-only trace are at least `W` apart, and
none happens before the deadline of the starting state. -/
theorem flushTimes_chain (W : ℤ) : ∀ (ws : List WriteEv) (s : monitor_file),
    (∀ e ∈ ws, e.tg ≤ e.tr) →
    List.Chain' (fun a b => a + W ≤ b) (flushTimes W s ws) ∧
      (∀ f, (flushTimes W s ws).head? = some f → s.time ≤ f)
  | [], _, _ => by simp [flushTimes]
  | e :: ws, s, h => by
    have hw : ∀ x ∈ ws, x.tg ≤ x.tr := fun x hx => h x (List.mem_cons_of_mem _ hx)
    have he : e.tg ≤ e.tr := h e (List.mem_cons_self _ _)
    have ih := flushTimes_chain W ws (writedata W s e.l e.tg e.tr) hw
    by_cases hg : s.time ≤ e.tg
    · have htime : (writedata W s e.l e.tg e.tr).time = e.tr + W :=
        writedata_time_flush W s e.l e.tg e.tr hg
      simp only [flushTimes, if_pos hg]
      constructor
      · rw [List.chain'_cons']
        refine ⟨?_, ih.1⟩
        intro b hb
        have hb2 := ih.2 b hb
        rw [htime] at hb2
        omega
      · intro f hf
        simp only [List.head?_cons, Option.some.injEq] at hf
        omega
    · have hg2 : e.tg < s.time := not_le.mp hg
      have htime : (writedata W s e.l e.tg e.tr).time = s.time :=
        writedata_time_noflush W s e.l e.tg e.tr hg2
      simp only [flushTimes, if_neg hg]
      refine ⟨ih.1, fun f hf => ?_⟩
      have := ih.2 f hf
      omega

/-! Helper lemmas about string splitting and the record line. -/

theorem splitOnChar_sep_cons (sep : Char) (cs : List Char) :
    splitOnChar sep (sep :: cs) = [] :: splitOnChar sep cs := by
  simp [splitOnChar]

theorem splitOnChar_append_noSep (sep : Char) : ∀ (xs : List Char) (cs : List Char),
    sep ∉ xs → ∀ (g : List Char) (gs : List (List Char)),
    splitOnChar sep cs = g :: gs →
    splitOnChar sep (xs ++ cs) = (xs ++ g) :: gs
  | [], cs, _, g, gs, hcs => by simpa using hcs
  | x :: xs, cs, hx, g, gs, hcs => by
    have hxne : ¬ x = sep := by
      rintro rfl
      exact hx (List.mem_cons_self _ _)
    have hxs : sep ∉ xs := fun hm => hx (List.mem_cons_of_mem x hm)
    have ih := splitOnChar_append_noSep sep xs cs hxs g gs hcs
    have ih2 : splitOnChar sep (xs.append cs) = (xs ++ g) :: gs := ih
    simp only [List.cons_append, splitOnChar, if_neg hxne, ih, ih2]

theorem splitOnChar_field (sep : Char) (xs cs : List Char)
    (hx : xs.count sep = 0) (g : List Char) (gs : List (List Char))
    (hcs : splitOnChar sep cs = g :: gs) :
    splitOnChar sep (xs ++ sep :: cs) = xs :: g :: gs := by
  have hmem : sep ∉ xs := List.count_eq_zero.mp hx
  have h2 : splitOnChar sep (sep :: cs) = [] :: g :: gs := by
    rw [splitOnChar_sep_cons, hcs]
  have h3 := splitOnChar_append_noSep sep xs (sep :: cs) hmem [] (g :: gs) h2
  simpa using h3

theorem tab_data_eq : ("\t" : String).data = ['\t'] := rfl

theorem newline_data_eq : ("\n" : String).data = ['\n'] := rfl

theorem recordLine_data (ts sM r t p h v : String) :
    (recordLine ts sM r t p h v ++ "\n").data
      = (tsTrim ts).data ++ '\t' :: (sM.data ++ '\t' :: (r.data ++ '\t' :: (t.data
          ++ '\t' :: (p.data ++ '\t' :: (h.data ++ '\t' :: (v.data ++ '\t' :: ['\n'])))))) := by
  simp [recordLine, String.data_append, tab_data_eq, newline_data_eq, List.append_assoc]

/-! Claim theorems. -/

/-- C1: for every sequence of writer operations started from a freshly
constructed `monitor_file`, if `flushdata` (with monotone clock samples) is
called after the last `writedata`, then the data lines of the file are
exactly the lines passed to `writedata`, each exactly once, each followed
by its newline, in insertion (FIFO) order. -/
theorem no_sample_dropped (W t0 : ℤ) (ops : List Op) (t1 tg tr : ℤ) (h : t1 ≤ tg) :
    dataChunks (run W (mkfile W t0) (ops ++ [Op.flush t1 tg tr])).file
      = (writtenLines ops).map (· ++ "\n") := by
  have hinv := run_chunks W (ops ++ [Op.flush t1 tg tr]) (mkfile W t0)
  have hnil : (run W (mkfile W t0) (ops ++ [Op.flush t1 tg tr])).data = [] := by
    rw [run_append]
    exact flushdata_data_nil W (run W (mkfile W t0) ops) t1 tg tr h
  rw [hnil] at hinv
  have hfile : (mkfile W t0).file = [] := rfl
  have hdata : (mkfile W t0).data = [] := rfl
  rw [hfile, hdata] at hinv
  simp only [List.map_nil, List.append_nil] at hinv
  rw [hinv]
  simp [dataChunks, writtenLines, List.filterMap_append]

/-- Witness for C1 at a concrete trace: two lines written, a forced flush,
both lines in the file in order. -/
theorem no_sample_dropped_witness :
    dataChunks (run 10 (mkfile 10 0)
        ([Op.write "a" 0 0, Op.write "b" 12 12] ++ [Op.flush 20 20 20])).file
      = ["a\n", "b\n"] :=
  (no_sample_dropped 10 0 [Op.write "a" 0 0, Op.write "b" 12 12] 20 20 20
    (by decide)).trans (by decide)

/-- C2: a `savedata` flush occurs exactly when the guard clock sample is at
or past the deadline and the buffer is non-empty; on a flush the pending
header (if truthy) is emitted first, then every buffered line in insertion
order, the buffer is fully cleared and the deadline is reset to the clock
plus the window; and for write-only traces (the spec's "sequences of
writes") consecutive flushes are at least `W` apart. -/
theorem flush_policy :
    (∀ (W : ℤ) (s : monitor_file) (tg tr : ℤ), s.data = [] ∨ tg < s.time →
        savedata W s tg tr = s) ∧
    (∀ (W : ℤ) (s : monitor_file) (tg tr : ℤ), s.data ≠ [] → s.time ≤ tg →
        savedata W s tg tr =
          { headertext := headerAfterFlush s.headertext
            data := []
            time := tr + W
            file := s.file ++ headerChunks s.headertext
              ++ (s.data.map fun d => Chunk.line (d ++ "\n")) }) ∧
    (∀ (W t0 : ℤ) (ws : List WriteEv), (∀ e ∈ ws, e.tg ≤ e.tr) →
        List.Chain' (fun a b => a + W ≤ b) (flushTimes W (mkfile W t0) ws)) :=
  ⟨savedata_noop, savedata_flush_eq,
    fun W t0 ws h => (flushTimes_chain W ws (mkfile W t0) h).1⟩

/-- Witness for C2: an early write does not flush; a due flush empties the
buffer, emits header then line and resets the deadline; a concrete
write-only trace has its flushes at least the window apart. -/
theorem flush_policy_witness :
    savedata 10 { headertext := some "", data := [], time := 5, file := [] } 9 9
        = { headertext := some "", data := [], time := 5, file := [] } ∧
    savedata 10 { headertext := some "# h\n", data := ["a"], time := 1, file := [] } 2 3
        = { headertext := none, data := [], time := 13,
            file := [Chunk.header "# h\n", Chunk.line "a\n"] } ∧
    List.Chain' (fun a b => a + 10 ≤ b)
      (flushTimes 10 (mkfile 10 0) [⟨"a", 0, 0⟩, ⟨"b", 10, 11⟩, ⟨"c", 15, 15⟩]) := by
  refine ⟨flush_policy.1 10 _ 9 9 (Or.inl rfl), ?_, flush_policy.2.2 10 0 _ (by decide)⟩
  exact (flush_policy.2.1 10
    { headertext := some "# h\n", data := ["a"], time := 1, file := [] } 2 3
    (by decide) (by decide)).trans (by decide)

/-- C3: over any sequence of `writedata` and `flushdata` operations on a
writer started with empty file and buffer and any header text, the header
is written to the file at most once; once flushed it is never re-emitted. -/
theorem header_at_most_once (W t0 : ℤ) (h : String) (ops : List Op) :
    headerCount (run W { headertext := some h, data := [], time := t0 + W, file := [] }
      ops).file ≤ 1 :=
  (run_headerInv W ops _ (by simp [headerCount]) (fun _ => by simp [headerCount])).1

/-- C4: `flushdata` with monotone clock samples always flushes immediately
(empty buffer afterwards, all buffered lines appended in order regardless
of the previous deadline); on an empty buffer it is a no-op apart from
resetting the deadline; and from a post-header writer state, one
`writedata "x"` followed by `flushdata` yields a file holding exactly the
header and the one line, for every window and every deadline. -/
theorem flushdata_immediate :
    (∀ (W : ℤ) (s : monitor_file) (t1 tg tr : ℤ), t1 ≤ tg →
        (flushdata W s t1 tg tr).data = [] ∧
        dataChunks (flushdata W s t1 tg tr).file
          = dataChunks s.file ++ s.data.map (· ++ "\n")) ∧
    (∀ (W : ℤ) (s : monitor_file) (t1 tg tr : ℤ), s.data = [] →
        flushdata W s t1 tg tr = { s with time := t1 }) ∧
    (∀ (W : ℤ) (h x : String) (dl t1g t1r t2 tg tr : ℤ), h ≠ "" → t2 ≤ tg →
        (flushdata W
          (writedata W { headertext := some h, data := [], time := dl, file := [] } x t1g t1r)
          t2 tg tr).file
          = [Chunk.header h, Chunk.line (x ++ "\n")]) := by
  refine ⟨?_, ?_, ?_⟩
  · intro W s t1 tg tr h
    have hd := flushdata_data_nil W s t1 tg tr h
    refine ⟨hd, ?_⟩
    have hc := savedata_chunks W { s with time := t1 } tg tr
    have heq : savedata W { s with time := t1 } tg tr = flushdata W s t1 tg tr := rfl
    rw [heq, hd] at hc
    simpa using hc
  · intro W s t1 tg tr h
    unfold flushdata
    exact savedata_noop W { s with time := t1 } tg tr (Or.inl h)
  · intro W h x dl t1g t1r t2 tg tr hh hle
    by_cases hf : dl ≤ t1g
    · have h1 : writedata W { headertext := some h, data := [], time := dl, file := [] } x t1g t1r
          = { headertext := none, data := [], time := t1r + W,
              file := [Chunk.header h, Chunk.line (x ++ "\n")] } := by
        unfold writedata
        rw [savedata_flush_eq W
          { headertext := some h, data := ([] : List String) ++ [x], time := dl, file := [] }
          t1g t1r (by simp) hf]
        simp [headerChunks_of_ne h hh, headerAfterFlush_of_ne h hh]
      rw [h1]
      unfold flushdata
      rw [savedata_noop W
        { headertext := none, data := [], time := t2,
          file := [Chunk.header h, Chunk.line (x ++ "\n")] } tg tr (Or.inl rfl)]
    · have h1 : writedata W { headertext := some h, data := [], time := dl, file := [] } x t1g t1r
          = { headertext := some h, data := [x], time := dl, file := [] } := by
        unfold writedata
        rw [savedata_noop W
          { headertext := some h, data := ([] : List String) ++ [x], time := dl, file := [] }
          t1g t1r (Or.inr (not_le.mp hf))]
        simp
      rw [h1]
      unfold flushdata
      rw [savedata_flush_eq W
        { headertext := some h, data := [x], time := t2, file := [] } tg tr (by simp) hle]
      simp [headerChunks_of_ne h hh]

/-- Witness for C4: a due forced flush on a one-line buffer, a forced flush
on an empty buffer, and scenario B at window 10 and deadline 100. -/
theorem flushdata_immediate_witness :
    ((flushdata 10 { headertext := some "# h\n", data := ["x"], time := 50, file := [] }
        3 3 3).data = [] ∧
      dataChunks (flushdata 10 { headertext := some "# h\n", data := ["x"], time := 50, file := [] }
        3 3 3).file = dataChunks [] ++ ["x"].map (· ++ "\n")) ∧
    flushdata 10 { headertext := some "# h\n", data := [], time := 50, file := [] } 7 8 9
      = { headertext := some "# h\n", data := [], time := 7, file := [] } ∧
    (flushdata 10
        (writedata 10 { headertext := some "# h\n", data := [], time := 100, file := [] } "x" 0 0)
        1 1 1).file
      = [Chunk.header "# h\n", Chunk.line "x\n"] := by
  refine ⟨?_, ?_, ?_⟩
  · exact flushdata_immediate.1 10
      { headertext := some "# h\n", data := ["x"], time := 50, file := [] } 3 3 3 (by decide)
  · exact flushdata_immediate.2.1 10
      { headertext := some "# h\n", data := [], time := 50, file := [] } 7 8 9 rfl
  · exact (flushdata_immediate.2.2 10 "# h\n" "x" 100 0 0 1 1 1 (by decide) (by decide)).trans
      (by decide)

/-- C5: `read` issues the five queries in the fixed source order and, when
every response parses, returns the assembled five-tuple of parsed values;
it fails exactly when at least one of the five responses fails its numeric
parse (Python `float` for four of them, `int` for the heater range). -/
theorem read_five_queries (q : String → String) (pF : String → Option ℚ)
    (pI : String → Option ℤ) :
    ((read q pF pI).2 = none ↔
      pF (q "RDGR? 1") = none ∨ pF (q "RDGK? 1") = none ∨ pF (q "SETP?") = none ∨
        pI (q "HTRRNG?") = none ∨ pF (q "HTR?") = none) ∧
    (∀ (a b c : ℚ) (d : ℤ) (e : ℚ), pF (q "RDGR? 1") = some a →
        pF (q "RDGK? 1") = some b → pF (q "SETP?") = some c →
        pI (q "HTRRNG?") = some d → pF (q "HTR?") = some e →
        read q pF pI = (readQueries, some (a, b, c, d, e))) := by
  constructor
  · cases h1 : pF (q "RDGR? 1") <;> cases h2 : pF (q "RDGK? 1") <;>
      cases h3 : pF (q "SETP?") <;> cases h4 : pI (q "HTRRNG?") <;>
      cases h5 : pF (q "HTR?") <;> simp [read, h1, h2, h3, h4, h5]
  · intro a b c d e h1 h2 h3 h4 h5
    simp [read, h1, h2, h3, h4, h5]

/-- Witness for C5: a stub device answering `"1"` to everything, parsers
accepting exactly `"1"`. -/
theorem read_five_queries_witness :
    read (fun _ => "1") (fun s => if s = "1" then some 1 else none)
        (fun s => if s = "1" then some 1 else none)
      = (readQueries, some (1, 1, 1, 1, 1)) :=
  (read_five_queries (fun _ => "1") (fun s => if s = "1" then some 1 else none)
    (fun s => if s = "1" then some 1 else none)).2 1 1 1 1 1 rfl rfl rfl rfl rfl

/-- C6 counterexample: window 10, writer constructed at time 0 with the
header block written; `writedata` calls at times 0, 0 and 1 produce zero
flushes, but when the window has elapsed the next `writedata` (at time 10)
emits FOUR data lines (the three buffered ones plus the line it has just
appended) plus the header, not three as claimed. -/
theorem scenarioA_counterexample :
    writeheaderblock (mkfile 10 0) "\nHDR\n"
        = Except.ok { headertext := some "# HDR\n", data := [], time := 10, file := [] } ∧
    (run 10 { headertext := some "# HDR\n", data := [], time := 10, file := [] }
        [Op.write "a" 0 0, Op.write "b" 0 0, Op.write "c" 1 1]).file = [] ∧
    (run 10 { headertext := some "# HDR\n", data := [], time := 10, file := [] }
        [Op.write "a" 0 0, Op.write "b" 0 0, Op.write "c" 1 1, Op.write "d" 10 10]).file
      = [Chunk.header "# HDR\n", Chunk.line "a\n", Chunk.line "b\n",
          Chunk.line "c\n", Chunk.line "d\n"] ∧
    (dataChunks (run 10 { headertext := some "# HDR\n", data := [], time := 10, file := [] }
        [Op.write "a" 0 0, Op.write "b" 0 0, Op.write "c" 1 1, Op.write "d" 10 10]).file).length
      = 4 :=
  ⟨rfl, by decide, by decide, by decide⟩

/-- C6 amended: with window 10, three `writedata` calls before the deadline
produce zero flushes; once the window has elapsed, a `flushdata` emits
exactly the three buffered lines plus the header, while a `writedata`
emits four lines (the three buffered ones plus the line it appends) plus
the header. -/
theorem scenarioA_amended (h a b c d : String) (t0 u1 v1 u2 v2 u3 v3 : ℤ)
    (hh : h ≠ "") (h1 : u1 < t0 + 10) (h2 : u2 < t0 + 10) (h3 : u3 < t0 + 10) :
    run 10 { headertext := some h, data := [], time := t0 + 10, file := [] }
        [Op.write a u1 v1, Op.write b u2 v2, Op.write c u3 v3]
      = { headertext := some h, data := [a, b, c], time := t0 + 10, file := [] } ∧
    (∀ t1 tg tr : ℤ, t1 ≤ tg →
      (flushdata 10 { headertext := some h, data := [a, b, c], time := t0 + 10, file := [] }
          t1 tg tr).file
        = [Chunk.header h, Chunk.line (a ++ "\n"), Chunk.line (b ++ "\n"),
            Chunk.line (c ++ "\n")]) ∧
    (∀ tg tr : ℤ, t0 + 10 ≤ tg →
      (writedata 10 { headertext := some h, data := [a, b, c], time := t0 + 10, file := [] }
          d tg tr).file
        = [Chunk.header h, Chunk.line (a ++ "\n"), Chunk.line (b ++ "\n"),
            Chunk.line (c ++ "\n"), Chunk.line (d ++ "\n")]) := by
  refine ⟨?_, ?_, ?_⟩
  · have e1 : step 10 { headertext := some h, data := [], time := t0 + 10, file := [] }
        (Op.write a u1 v1)
        = { headertext := some h, data := [a], time := t0 + 10, file := [] } := by
      show writedata 10 { headertext := some h, data := [], time := t0 + 10, file := [] }
        a u1 v1 = _
      unfold writedata
      rw [savedata_noop 10
        { headertext := some h, data := ([] : List String) ++ [a], time := t0 + 10, file := [] }
        u1 v1 (Or.inr h1)]
      simp
    have e2 : step 10 { headertext := some h, data := [a], time := t0 + 10, file := [] }
        (Op.write b u2 v2)
        = { headertext := some h, data := [a, b], time := t0 + 10, file := [] } := by
      show writedata 10 { headertext := some h, data := [a], time := t0 + 10, file := [] }
        b u2 v2 = _
      unfold writedata
      rw [savedata_noop 10
        { headertext := some h, data := [a] ++ [b], time := t0 + 10, file := [] }
        u2 v2 (Or.inr h2)]
      simp
    have e3 : step 10 { headertext := some h, data := [a, b], time := t0 + 10, file := [] }
        (Op.write c u3 v3)
        = { headertext := some h, data := [a, b, c], time := t0 + 10, file := [] } := by
      show writedata 10 { headertext := some h, data := [a, b], time := t0 + 10, file := [] }
        c u3 v3 = _
      unfold writedata
      rw [savedata_noop 10
        { headertext := some h, data := [a, b] ++ [c], time := t0 + 10, file := [] }
        u3 v3 (Or.inr h3)]
      simp
    rw [run_cons, e1, run_cons, e2, run_cons, e3]
    rfl
  · intro t1 tg tr hle
    unfold flushdata
    rw [savedata_flush_eq 10
      { headertext := some h, data := [a, b, c], time := t1, file := [] } tg tr (by simp) hle]
    simp [headerChunks_of_ne h hh]
  · intro tg tr hle
    unfold writedata
    rw [savedata_flush_eq 10
      { headertext := some h, data := [a, b, c] ++ [d], time := t0 + 10, file := [] }
      tg tr (by simp) hle]
    simp [headerChunks_of_ne h hh]

/-- Witness for C6 amended, at the counterexample's concrete inputs with a
forced flush as the fourth call. -/
theorem scenarioA_amended_witness :
    run 10 { headertext := some "# HDR\n", data := [], time := 0 + 10, file := [] }
        [Op.write "a" 0 0, Op.write "b" 0 0, Op.write "c" 1 1]
      = { headertext := some "# HDR\n", data := ["a", "b", "c"], time := 0 + 10, file := [] } ∧
    (flushdata 10 { headertext := some "# HDR\n", data := ["a", "b", "c"], time := 0 + 10, file := [] }
        11 11 11).file
      = [Chunk.header "# HDR\n", Chunk.line "a\n", Chunk.line "b\n", Chunk.line "c\n"] := by
  have h := scenarioA_amended "# HDR\n" "a" "b" "c" "d" 0 0 0 0 0 1 1
    (by decide) (by decide) (by decide) (by decide)
  exact ⟨h.1, h.2.1 11 11 11 (by decide)⟩

/-- C7 counterexample: at a concrete time stamp and concrete formatted
fields, the stored line has a trailing tab before its newline (seven tabs
in all), so it does not consist of seven tab-separated fields terminated
by a newline; its time-stamp field is also `12:34:56.7`, ten characters
with one fractional digit, not the twelve-character `HH:MM:SS.fff`. -/
theorem line_format_counterexample :
    ¬ claimC7shape (recordLine "12:34:56.789012" "1.0" "2.0" "3.0" "4.0" "5" "6.0" ++ "\n") := by
  rintro ⟨f1, f2, f3, f4, f5, f6, f7, c1, c2, c3, c4, c5, c6, c7, hlen, heq⟩
  have hcount : (recordLine "12:34:56.789012" "1.0" "2.0" "3.0" "4.0" "5" "6.0"
      ++ "\n").data.count '\t' = 7 := by decide
  rw [heq] at hcount
  simp [String.data_append, tab_data_eq, newline_data_eq, List.count_append,
    c1, c2, c3, c4, c5, c6, c7] at hcount

/-- C7 amended: a stored data line is the seven fields (the trimmed
wall-clock stamp first, then the six formatted numeric fields) EACH
followed by a tab, then a newline: splitting it on tabs yields the seven
fields and a final component holding only the newline; and the time stamp
keeps the first ten characters of `HH:MM:SS.ffffff`, i.e. exactly ONE
fractional digit. -/
theorem line_format_amended (ts sM r t p h v : String)
    (hts : ts.data.count '\t' = 0) (hsM : sM.data.count '\t' = 0)
    (hr : r.data.count '\t' = 0) (ht : t.data.count '\t' = 0)
    (hp : p.data.count '\t' = 0) (hh : h.data.count '\t' = 0)
    (hv : v.data.count '\t' = 0) (hlen : ts.length = 15) :
    splitOnChar '\t' ((recordLine ts sM r t p h v ++ "\n").data)
      = [(tsTrim ts).data, sM.data, r.data, t.data, p.data, h.data, v.data, ['\n']] ∧
    (tsTrim ts).length = 10 := by
  constructor
  · rw [recordLine_data]
    have hbase : splitOnChar '\t' ['\n'] = [['\n']] := by decide
    have s7 := splitOnChar_field '\t' v.data ['\n'] hv _ _ hbase
    have s6 := splitOnChar_field '\t' h.data _ hh _ _ s7
    have s5 := splitOnChar_field '\t' p.data _ hp _ _ s6
    have s4 := splitOnChar_field '\t' t.data _ ht _ _ s5
    have s3 := splitOnChar_field '\t' r.data _ hr _ _ s4
    have s2 := splitOnChar_field '\t' sM.data _ hsM _ _ s3
    have hts2 : (tsTrim ts).data.count '\t' = 0 := by
      have hsub : List.Sublist ((tsTrim ts).data) ts.data := by
        simpa [tsTrim] using List.take_sublist (ts.data.length - 5) ts.data
      have hle := List.Sublist.count_le hsub '\t'
      omega
    exact splitOnChar_field '\t' (tsTrim ts).data _ hts2 _ _ s2
  · have h15 : ts.data.length = 15 := hlen
    show (ts.data.take (ts.data.length - 5)).length = 10
    rw [List.length_take, h15]
    omega

/-- Witness for C7 amended at the counterexample's concrete inputs. -/
theorem line_format_amended_witness :
    splitOnChar '\t' ((recordLine "12:34:56.789012" "1.0" "2.0" "3.0" "4.0" "5" "6.0"
        ++ "\n").data)
      = [("12:34:56.7" : String).data, ("1.0" : String).data, ("2.0" : String).data,
          ("3.0" : String).data, ("4.0" : String).data, ("5" : String).data,
          ("6.0" : String).data, ['\n']] ∧
    (tsTrim "12:34:56.789012").length = 10 := by
  have h := line_format_amended "12:34:56.789012" "1.0" "2.0" "3.0" "4.0" "5" "6.0"
    (by decide) (by decide) (by decide) (by decide) (by decide) (by decide) (by decide) rfl
  exact ⟨h.1.trans (by decide), h.2⟩

/-- C8 counterexample: on a writer whose header has been flushed
(`headertext` is `None`), `writeheaderblock` with a block holding one inner
line raises `TypeError` (appending a string to `None`); it is not a no-op
and it does raise. -/
theorem writeheaderblock_counterexample :
    writeheaderblock { headertext := none, data := [], time := 0, file := [] } "\nx\n"
      = Except.error () :=
  rfl

/-- C8 amended: after the header has been flushed (`headertext = None`), a
`writeheaderblock` call is a no-op only when the block has no inner lines;
when the block has at least one inner line it raises `TypeError` instead of
being a no-op. -/
theorem writeheaderblock_after_flush (s : monitor_file) (b : String)
    (hs : s.headertext = none) :
    (headerlines b = [] → writeheaderblock s b = Except.ok s) ∧
    (headerlines b ≠ [] → writeheaderblock s b = Except.error ()) := by
  constructor
  · intro hb
    simp [writeheaderblock, hb]
  · intro hb
    rcases hl : headerlines b with _ | ⟨l0, rest⟩
    · exact absurd hl hb
    · simp [writeheaderblock, hl, hs]

/-- Witness for C8 amended: an empty block is a no-op, a block with one
inner line raises. -/
theorem writeheaderblock_after_flush_witness :
    writeheaderblock { headertext := none, data := [], time := 5, file := [] } ""
        = Except.ok { headertext := none, data := [], time := 5, file := [] } ∧
    writeheaderblock { headertext := none, data := [], time := 5, file := [] } "\ny\n"
        = Except.error () :=
  ⟨(writeheaderblock_after_flush
      { headertext := none, data := [], time := 5, file := [] } "" rfl).1 (by decide),
    (writeheaderblock_after_flush
      { headertext := none, data := [], time := 5, file := [] } "\ny\n" rfl).2 (by decide)⟩

/-- C9 counterexample: the bootstrap sets `Running = True` (line 403)
strictly BEFORE starting the scheduler thread (line 404), so the claimed
order — thread started first, run flag set only then — is false. -/
theorem bootstrap_order_counterexample : ¬ claimC9order := by
  intro hc
  simp [claimC9order, bootPrecedes, bootLine] at hc

/-- C9 amended: the startup order is: construct the log file, write the
header block, open, configure and start the instrument port, set the run
flag to true, and only then start the scheduler thread (the flag must be
true before the thread starts, or the loop would exit immediately). -/
theorem bootstrap_order_amended :
    bootPrecedes BootEvent.constructFile BootEvent.writeHeaderBlock ∧
    bootPrecedes BootEvent.writeHeaderBlock BootEvent.openPort ∧
    bootPrecedes BootEvent.openPort BootEvent.configurePort ∧
    bootPrecedes BootEvent.configurePort BootEvent.startPort ∧
    bootPrecedes BootEvent.startPort BootEvent.setRunningTrue ∧
    bootPrecedes BootEvent.setRunningTrue BootEvent.startThread := by
  refine ⟨?_, ?_, ?_, ?_, ?_, ?_⟩ <;> · unfold bootPrecedes bootLine; decide

/-- C10: on an empty buffer, `savedata` is the identity (no file write, a
pending header is NOT emitted, header and buffer unchanged) and
`flushdata` changes nothing except resetting the flush deadline to its
clock sample. -/
theorem empty_buffer_noop (W : ℤ) (s : monitor_file) (tg tr t1 tg2 tr2 : ℤ)
    (h : s.data = []) :
    savedata W s tg tr = s ∧ flushdata W s t1 tg2 tr2 = { s with time := t1 } := by
  refine ⟨savedata_noop W s tg tr (Or.inl h), ?_⟩
  unfold flushdata
  exact savedata_noop W { s with time := t1 } tg2 tr2 (Or.inl h)

/-- Witness for C10: a writer with a pending header and empty buffer, well
past its deadline: `savedata` changes nothing, `flushdata` only moves the
deadline. -/
theorem empty_buffer_noop_witness :
    savedata 10 { headertext := some "# h\n", data := [], time := 7, file := [] } 100 100
        = { headertext := some "# h\n", data := [], time := 7, file := [] } ∧
    flushdata 10 { headertext := some "# h\n", data := [], time := 7, file := [] } 42 43 44
        = { headertext := some "# h\n", data := [], time := 42, file := [] } :=
  empty_buffer_noop 10 { headertext := some "# h\n", data := [], time := 7, file := [] }
    100 100 42 43 44 rfl

end LakeShore
